import Mathlib

/-!
Shallow embedding of the TimeClockPro punch ledger, time reconstruction,
correction / time-off workflows and stats aggregator.

Sources: the SqliteStorage class (src/unnamed/part_004), the HTTP routes
(src/unnamed/part_005), the shared drizzle schema (src/unnamed/part_008),
and the client-side time reconstruction (src/unnamed/part_001).

Timestamps are JavaScript epoch milliseconds, modelled as Int. Calendar
dates of time-off requests are TEXT columns holding ISO "YYYY-MM-DD"
strings, which SQLite compares lexicographically; for fixed-width ISO
dates that order is isomorphic to the numeric order of YYYYMMDD, so dates
are modelled as Nat.
-/

namespace TimeClockPro

/-- Punch type enum, "in" or "out" (punch_type TEXT enum of part_008). -/
inductive PunchType
  | IN
  | OUT
deriving DecidableEq, Repr

/-- A row of the punches table (part_008 lines 17-26): id, employee_id,
punch_type, timestamp (epoch ms), latitude, longitude, ip_address, flagged. -/
structure Punch where
  id : String
  employeeId : String
  punchType : PunchType
  timestamp : Int
  latitude : Option ℚ
  longitude : Option ℚ
  ipAddress : String
  flagged : Bool
deriving DecidableEq, Repr

/-- InsertPunch (part_008 lines 80-83): createInsertSchema(punches) with id
and timestamp omitted, so a caller cannot supply either; flagged is optional
in the zod schema. -/
structure InsertPunch where
  employeeId : String
  punchType : PunchType
  latitude : Option ℚ
  longitude : Option ℚ
  ipAddress : String
  flagged : Option Bool
deriving DecidableEq, Repr

/-- Convenience constructor for concrete punches in examples. -/
def mkPunch (pid emp : String) (pt : PunchType) (ts : Int) : Punch :=
  { id := pid, employeeId := emp, punchType := pt, timestamp := ts,
    latitude := none, longitude := none, ipAddress := "127.0.0.1", flagged := false }

/-- The 30-second dedup window, 30 * 1000 ms (part_004 line 390). -/
def dupWindowMs : Int := 30 * 1000

/-- The user-facing duplicate message (part_004 line 405). -/
def duplicatePunchMessage : String :=
  "Duplicate punch detected. Please wait before punching again."

/-- The dedup probe of SqliteStorage.createPunch (part_004 lines 394-396):
SELECT id FROM punches WHERE employee_id = ? AND punch_type = ? AND
timestamp > ? with threshold now - 30000. -/
def isRecentDuplicate (store : List Punch) (p : InsertPunch) (now : Int) : Bool :=
  store.any fun q =>
    q.employeeId == p.employeeId && q.punchType == p.punchType &&
      decide (now - dupWindowMs < q.timestamp)

/-- SqliteStorage.createPunch (part_004 lines 385-430). The timestamp of the
new row is the wall clock at insert time (line 387: new Date()); InsertPunch
carries no timestamp field, mirroring the omit in insertPunchSchema. On a
recent duplicate the insert is not run, so the store is returned unchanged
beside the error. flagged is stored as punch.flagged ? 1 : 0 and echoed as
punch.flagged ?? false, both of which are getD false. -/
def createPunch (store : List Punch) (now : Int) (newId : String) (p : InsertPunch) :
    List Punch × Except String Punch :=
  if isRecentDuplicate store p now then
    (store, Except.error duplicatePunchMessage)
  else
    let newPunch : Punch :=
      { id := newId, employeeId := p.employeeId, punchType := p.punchType,
        timestamp := now, latitude := p.latitude, longitude := p.longitude,
        ipAddress := p.ipAddress, flagged := p.flagged.getD false }
    (newPunch :: store, Except.ok newPunch)

/-- The POST /api/admin/punches/manual route (part_005 lines 477-503): the
admin-supplied timestamp is placed in punchData, but
insertPunchSchema.parse strips it (the schema omits timestamp), and
storage.createPunch is called exactly as for self-service punches, so the
adminTimestamp argument is discarded. -/
def manualPunchRoute (store : List Punch) (now : Int) (newId : String)
    (employeeId : String) (adminTimestamp : Int) (pt : PunchType) (ip : String) :
    List Punch × Except String Punch :=
  createPunch store now newId
    { employeeId := employeeId, punchType := pt, latitude := none, longitude := none,
      ipAddress := ip, flagged := some false }

/-- Ascending sort by timestamp, the client's
sort((a, b) => a.timestamp - b.timestamp) (part_001 line 788). -/
def sortByTimestamp (ps : List Punch) : List Punch :=
  List.insertionSort (fun a b => a.timestamp ≤ b.timestamp) ps

/-- One step of the worked-time walk (part_001 lines 793-804): an "in" punch
overwrites lastClockIn; an "out" punch closes an open session, accumulating
the difference, and is ignored when no session is open. -/
def walkStep (acc : Int × Option Int) (p : Punch) : Int × Option Int :=
  match p.punchType with
  | PunchType.IN => (acc.1, some p.timestamp)
  | PunchType.OUT =>
    match acc.2 with
    | some t => (acc.1 + (p.timestamp - t), none)
    | none => (acc.1, none)

/-- The for loop of part_001 lines 793-804 as a fold: total worked ms and
the final lastClockIn. -/
def walkPunches (ps : List Punch) : Int × Option Int :=
  ps.foldl walkStep (0, none)

/-- Break-time pass of part_001 lines 814-822: over consecutive pairs of the
sorted punches, accumulate the gap whenever the first is "out" and the second
is "in". -/
def breakMs : List Punch → Int
  | p :: q :: rest =>
    (if p.punchType = PunchType.OUT ∧ q.punchType = PunchType.IN
      then q.timestamp - p.timestamp else 0) + breakMs (q :: rest)
  | _ => 0

/-- The useMemo of part_001 lines 785-828: hoursWorked and breakTime for
today's punches. Empty input short-circuits to (0, 0); a live session is
added only when the employee is currently clocked in; worked ms are divided
by 1000 * 60 * 60, break ms by 1000 * 60. -/
def hoursWorkedBreakTime (todayPunches : List Punch) (isCurrentlyClockedIn : Bool)
    (now : Int) : ℚ × ℚ :=
  if todayPunches.isEmpty then (0, 0)
  else
    let sorted := sortByTimestamp todayPunches
    let w := walkPunches sorted
    let totalWorked : Int :=
      match isCurrentlyClockedIn, w.2 with
      | true, some t => w.1 + (now - t)
      | _, _ => w.1
    ((totalWorked : ℚ) / (1000 * 60 * 60), (breakMs sorted : ℚ) / (1000 * 60))

/-- One step of the per-day walk of the weekly view (part_001 lines 858-868),
which accumulates hours (workedMs / 3600000) pair by pair. -/
def dayStep (acc : ℚ × Option Int) (p : Punch) : ℚ × Option Int :=
  match p.punchType with
  | PunchType.IN => (acc.1, some p.timestamp)
  | PunchType.OUT =>
    match acc.2 with
    | some t => (acc.1 + ((p.timestamp - t : Int) : ℚ) / (1000 * 60 * 60), none)
    | none => (acc.1, none)

/-- Hours of one day bucket of the weekly view (part_001 lines 850-875): the
live add-on applies only when the bucket is today and the employee is
currently clocked in. -/
def weeklyDayHours (dayPunches : List Punch) (isToday : Bool)
    (isCurrentlyClockedIn : Bool) (now : Int) : ℚ :=
  let sorted := sortByTimestamp dayPunches
  let w := sorted.foldl dayStep (0, none)
  match isToday && isCurrentlyClockedIn, w.2 with
  | true, some t => w.1 + ((now - t : Int) : ℚ) / (1000 * 60 * 60)
  | _, _ => w.1

/-- Worked milliseconds as the claim words them: the sum of
(out.timestamp - lastClockIn) over in/out pairs of the ascending walk. -/
def workedMsSpec (lastIn : Option Int) : List Punch → Int
  | [] => 0
  | p :: rest =>
    match p.punchType, lastIn with
    | PunchType.IN, _ => workedMsSpec (some p.timestamp) rest
    | PunchType.OUT, some t => (p.timestamp - t) + workedMsSpec none rest
    | PunchType.OUT, none => workedMsSpec none rest

/-- Break milliseconds as the claim words them: the sum over adjacent sorted
pairs (punch i, punch i+1) of the gap when punch i is "out" and punch i+1 is
"in". -/
def breakMsSpec (l : List Punch) : Int :=
  ((l.zip l.tail).map fun pq =>
    if pq.1.punchType = PunchType.OUT ∧ pq.2.punchType = PunchType.IN
      then pq.2.timestamp - pq.1.timestamp else 0).sum

/-- A row of the employees table (part_008 lines 5-15), restricted to the
fields the aggregator reads. -/
structure Employee where
  id : String
  name : String
  pin : String
  isActive : Bool
  isAdmin : Bool
deriving DecidableEq, Repr

/-- Status enum shared by corrections and time-off requests (part_008). -/
inductive RequestStatus
  | pending
  | approved
  | denied
deriving DecidableEq, Repr

/-- A row of the corrections table (part_008 lines 50-57). -/
structure Correction where
  id : String
  employeeId : String
  punchId : Option String
  date : String
  note : String
  status : RequestStatus
deriving DecidableEq, Repr

/-- Milliseconds of one day, todayEnd - todayStart (part_004 line 877). -/
def dayMs : Int := 24 * 60 * 60 * 1000

/-- Timestamp lies in the window of today: timestamp >= todayStart AND
timestamp < todayEnd (part_004 lines 893-901). -/
def inTodayWindow (todayStart t : Int) : Bool :=
  decide (todayStart ≤ t) && decide (t < todayStart + dayMs)

/-- The aggregate result of SqliteStorage.getAdminStats. -/
structure AdminStats where
  activeEmployees : Nat
  clockedInToday : Nat
  punchesToday : Nat
  pendingCorrections : Nat
deriving DecidableEq, Repr

/-- SqliteStorage.getAdminStats (part_004 lines 868-920): COUNT of active
employees; COUNT(DISTINCT employee_id) of punches of type "in" inside the
window of today; COUNT of punches inside that window; COUNT of corrections
with status pending. -/
def getAdminStats (employees : List Employee) (punches : List Punch)
    (corrections : List Correction) (todayStart : Int) : AdminStats :=
  { activeEmployees := (employees.filter fun e => e.isActive).length,
    clockedInToday :=
      (((punches.filter fun p =>
          inTodayWindow todayStart p.timestamp && p.punchType == PunchType.IN).map
        fun p => p.employeeId).dedup).length,
    punchesToday := (punches.filter fun p => inTodayWindow todayStart p.timestamp).length,
    pendingCorrections :=
      (corrections.filter fun c => c.status == RequestStatus.pending).length }

/-- The punch of maximal timestamp among an employee's punches inside the
window of today, as the claim words the aggregate ("last punch of today, by
maximum timestamp within that window"). -/
def lastPunchInWindow (punches : List Punch) (emp : String) (todayStart : Int) :
    Option Punch :=
  (punches.filter fun p => p.employeeId == emp && inTodayWindow todayStart p.timestamp).foldl
    (fun acc p =>
      match acc with
      | none => some p
      | some q => if q.timestamp < p.timestamp then some p else some q)
    none

/-- The clocked-in count as the claim words it: employees whose last punch of
today has type "in". -/
def clockedInTodaySpec (employees : List Employee) (punches : List Punch)
    (todayStart : Int) : Nat :=
  (employees.filter fun e =>
    match lastPunchInWindow punches e.id todayStart with
    | some p => p.punchType == PunchType.IN
    | none => false).length

/-- SqliteStorage.updateCorrection (part_004 lines 813-866) as invoked by the
PUT /api/admin/corrections/:id route (part_005 lines 515-526): the provided
subset of status and note is applied to the row of the given id with no
validation of either field, and the row is read back; a missing id leaves the
store unchanged and yields none. -/
def updateCorrection (store : List Correction) (cid : String)
    (statusField : Option RequestStatus) (noteField : Option String) :
    List Correction × Option Correction :=
  let newStore := store.map fun c =>
    if c.id == cid then
      { c with status := statusField.getD c.status, note := noteField.getD c.note }
    else c
  (newStore, newStore.find? fun c => c.id == cid)

/-- Time-off type enum (part_008 line 68). -/
inductive TimeOffType
  | vacation
  | sick
  | personal
  | other
deriving DecidableEq, Repr

/-- A row of the time_off_requests table (part_008 lines 60-75). startDate
and endDate are ISO date strings modelled as Nat (see the file comment);
startTime and endTime are "HH:MM" strings for partial days. -/
structure TimeOffRequest where
  id : String
  employeeId : String
  startDate : ℕ
  endDate : ℕ
  startTime : Option String
  endTime : Option String
  isPartialDay : Bool
  type : TimeOffType
  reason : Option String
  requestDate : Int
  status : RequestStatus
  adminResponse : Option String
  processedDate : Option Int
  processedBy : Option String
deriving DecidableEq, Repr

/-- The WHERE clause of SqliteStorage.getTimeOffRequestsInRange (part_004
lines 1012-1016): (start_date <= qEnd AND end_date >= qStart) OR
(start_date >= qStart AND start_date <= qEnd). -/
def overlapsQuery (r : TimeOffRequest) (qStart qEnd : ℕ) : Prop :=
  (r.startDate ≤ qEnd ∧ qStart ≤ r.endDate) ∨
    (qStart ≤ r.startDate ∧ r.startDate ≤ qEnd)

instance (r : TimeOffRequest) (qStart qEnd : ℕ) : Decidable (overlapsQuery r qStart qEnd) :=
  inferInstanceAs (Decidable (_ ∨ _))

/-- SqliteStorage.getTimeOffRequestsInRange (part_004 lines 1009-1038):
filter by the WHERE clause, ordered by start_date ascending. -/
def getTimeOffRequestsInRange (store : List TimeOffRequest) (qStart qEnd : ℕ) :
    List TimeOffRequest :=
  List.insertionSort (fun a b => a.startDate ≤ b.startDate)
    (store.filter fun r => decide (overlapsQuery r qStart qEnd))

/-- Inclusive intersection of the intervals [s, e] and [qs, qe], as the claim
words it. -/
def intervalsIntersect (s e qs qe : ℕ) : Prop :=
  max s qs ≤ min e qe

instance (s e qs qe : ℕ) : Decidable (intervalsIntersect s e qs qe) :=
  inferInstanceAs (Decidable (_ ≤ _))

/-- The update payload of SqliteStorage.updatePunch (part_004 lines 522-591):
any subset of timestamp, punchType, latitude, longitude, flagged; ip_address
is not updatable there. -/
structure PunchUpdate where
  timestamp : Option Int
  punchType : Option PunchType
  latitude : Option (Option ℚ)
  longitude : Option (Option ℚ)
  flagged : Option Bool
deriving DecidableEq, Repr

/-- Apply the provided subset of fields to a row, as the dynamically built
UPDATE statement of part_004 lines 523-545 does. -/
def applyPunchUpdate (u : PunchUpdate) (p : Punch) : Punch :=
  { p with
    timestamp := u.timestamp.getD p.timestamp,
    punchType := u.punchType.getD p.punchType,
    latitude := u.latitude.getD p.latitude,
    longitude := u.longitude.getD p.longitude,
    flagged := u.flagged.getD p.flagged }

/-- SqliteStorage.updatePunch (part_004 lines 522-591): UPDATE the row of the
given id with the provided fields, then SELECT it back; a missing id leaves
the store unchanged and yields none. -/
def updatePunch (store : List Punch) (pid : String) (u : PunchUpdate) :
    List Punch × Option Punch :=
  let newStore := store.map fun p => if p.id == pid then applyPunchUpdate u p else p
  (newStore, newStore.find? fun p => p.id == pid)

/-- An update that sets only the timestamp. -/
def timestampOnlyUpdate (t : Int) : PunchUpdate :=
  { timestamp := some t, punchType := none, latitude := none, longitude := none,
    flagged := none }

/-- A concrete self-service clock-in payload used by concrete instances. -/
def insertSample : InsertPunch :=
  { employeeId := "e1", punchType := PunchType.IN, latitude := none, longitude := none,
    ipAddress := "127.0.0.1", flagged := some false }

/-- The day shift of the spec's worked example: in@09:00, out@12:00, in@13:00,
out@17:00, as ms offsets from local midnight. -/
def dayShiftPunches : List Punch :=
  [mkPunch "p1" "e1" PunchType.IN 32400000, mkPunch "p2" "e1" PunchType.OUT 43200000,
   mkPunch "p3" "e1" PunchType.IN 46800000, mkPunch "p4" "e1" PunchType.OUT 61200000]

/-- The consecutive-in example: in@09:00, in@09:05, out@12:00. -/
def doubleInPunches : List Punch :=
  [mkPunch "p1" "e1" PunchType.IN 32400000, mkPunch "p2" "e1" PunchType.IN 32700000,
   mkPunch "p3" "e1" PunchType.OUT 43200000]

/-- The unpaired trailing-in example: a single in@09:00. -/
def singleInPunch : List Punch :=
  [mkPunch "p1" "e1" PunchType.IN 32400000]

/-- A single active employee for the stats instances. -/
def statsEmployee : Employee :=
  { id := "e1", name := "Alice", pin := "1234", isActive := true, isAdmin := false }

/-- An in punch followed by an out punch, both inside the window of today
that starts at 0. -/
def statsPunches : List Punch :=
  [mkPunch "p1" "e1" PunchType.IN 100, mkPunch "p2" "e1" PunchType.OUT 200]

/-- A pending correction awaiting an admin decision. -/
def pendingCorrection : Correction :=
  { id := "c1", employeeId := "e1", punchId := some "p1", date := "2025-03-01",
    note := "please fix my punch", status := RequestStatus.pending }

/-- The time-off request of the spec's overlap example, 2025-03-10 through
2025-03-12. -/
def marchRequest : TimeOffRequest :=
  { id := "t1", employeeId := "e1", startDate := 20250310, endDate := 20250312,
    startTime := none, endTime := none, isPartialDay := false,
    type := TimeOffType.vacation, reason := none, requestDate := 0,
    status := RequestStatus.pending, adminResponse := none, processedDate := none,
    processedBy := none }

/-- The dedup probe succeeds exactly when some stored punch shares the
employee and the type and has a timestamp strictly above now - 30000. -/
lemma isRecentDuplicate_iff (store : List Punch) (p : InsertPunch) (now : Int) :
    isRecentDuplicate store p now = true ↔
      ∃ q ∈ store, q.employeeId = p.employeeId ∧ q.punchType = p.punchType ∧
        now - dupWindowMs < q.timestamp := by
  simp [isRecentDuplicate, List.any_eq_true, Bool.and_eq_true, beq_iff_eq,
    decide_eq_true_eq, and_assoc]

/-- Mapping a function that leaves the search key untouched commutes with
find?. -/
lemma find?_map_key_invariant {α : Type} (g : α → α) (key : α → Bool)
    (hg : ∀ x, key (g x) = key x) (l : List α) :
    (l.map g).find? key = (l.find? key).map g := by
  have hkey : key ∘ g = key := funext hg
  rw [List.find?_map, hkey]

/-- C1: createPunch for an employee and punch type rejects with the distinct
duplicate-punch error, and leaves the ledger unchanged, whenever a punch of
the same employeeId and punchType already exists with a timestamp within the
last 30 seconds of the wall clock at insert time. -/
theorem createPunch_rejects_recent_duplicate (store : List Punch) (now : Int)
    (newId : String) (p : InsertPunch) (q : Punch) (hq : q ∈ store)
    (hemp : q.employeeId = p.employeeId) (hty : q.punchType = p.punchType)
    (hrecent : now - dupWindowMs < q.timestamp) (hpast : q.timestamp ≤ now) :
    createPunch store now newId p = (store, Except.error duplicatePunchMessage) := by
  have hdup : isRecentDuplicate store p now = true :=
    (isRecentDuplicate_iff store p now).mpr ⟨q, hq, hemp, hty, hrecent⟩
  simp [createPunch, hdup]

/-- Witness for C1: a clock-in 10 seconds after an identical clock-in is
rejected and the store keeps its single punch. -/
theorem createPunch_rejects_recent_duplicate_witness :
    createPunch [mkPunch "p0" "e1" PunchType.IN 999990000] 1000000000 "p1" insertSample =
      ([mkPunch "p0" "e1" PunchType.IN 999990000],
        Except.error duplicatePunchMessage) :=
  createPunch_rejects_recent_duplicate _ 1000000000 "p1" insertSample
    (mkPunch "p0" "e1" PunchType.IN 999990000) (by decide) rfl rfl (by decide) (by decide)

/-- C10: createPunch rejects as a duplicate exactly when an existing punch of
the same employeeId and punchType has a timestamp strictly greater than the
insert wall-clock time minus 30000 ms; a prior same-type punch timestamped
exactly 30000 ms before insert time does not trigger the rejection. -/
theorem createPunch_dedup_boundary_strict :
    (∀ (store : List Punch) (now : Int) (newId : String) (p : InsertPunch),
        (createPunch store now newId p).2 = Except.error duplicatePunchMessage ↔
          ∃ q ∈ store, q.employeeId = p.employeeId ∧ q.punchType = p.punchType ∧
            now - dupWindowMs < q.timestamp) ∧
    (∀ (now : Int) (newId : String) (p : InsertPunch) (q : Punch),
        q.employeeId = p.employeeId → q.punchType = p.punchType →
        q.timestamp = now - dupWindowMs →
        (createPunch [q] now newId p).2 =
          Except.ok
            { id := newId, employeeId := p.employeeId, punchType := p.punchType,
              timestamp := now, latitude := p.latitude, longitude := p.longitude,
              ipAddress := p.ipAddress, flagged := p.flagged.getD false }) := by
  constructor
  · intro store now newId p
    rw [← isRecentDuplicate_iff store p now]
    by_cases h : isRecentDuplicate store p now <;> simp [createPunch, h]
  · intro now newId p q hemp hty hts
    have h : isRecentDuplicate [q] p now = false := by
      simp [isRecentDuplicate, hts]
    simp [createPunch, h]

/-- Witness for C10: a same-type punch 10 seconds old triggers the rejection,
and one exactly 30 seconds old does not. -/
theorem createPunch_dedup_boundary_strict_witness :
    ((createPunch [mkPunch "p0" "e1" PunchType.IN 999990000] 1000000000 "p1"
        insertSample).2 = Except.error duplicatePunchMessage) ∧
    ((createPunch [mkPunch "p0" "e1" PunchType.IN 999970000] 1000000000 "p1"
        insertSample).2 =
      Except.ok
        { id := "p1", employeeId := "e1", punchType := PunchType.IN,
          timestamp := 1000000000, latitude := none, longitude := none,
          ipAddress := "127.0.0.1", flagged := false }) :=
  ⟨(createPunch_dedup_boundary_strict.1 _ 1000000000 "p1" insertSample).mpr
      ⟨mkPunch "p0" "e1" PunchType.IN 999990000, by decide, rfl, rfl, by decide⟩,
   createPunch_dedup_boundary_strict.2 1000000000 "p1" insertSample
      (mkPunch "p0" "e1" PunchType.IN 999970000) rfl rfl (by decide)⟩

/-- C3: contrary to the spec, the manual admin-entry route does not bypass
the 30-second dedup window and the created punch does not carry the
admin-supplied timestamp: with an identical-type punch 10 seconds old the
manual call is rejected as a duplicate, and on an empty ledger the created
punch is stamped with the wall clock, whatever timestamp the admin supplied. -/
theorem manualPunchRoute_applies_dedup_and_ignores_timestamp :
    (∀ adminTimestamp : Int,
        manualPunchRoute [mkPunch "p0" "e1" PunchType.IN 999990000] 1000000000 "p1"
            "e1" adminTimestamp PunchType.IN "10.0.0.1" =
          ([mkPunch "p0" "e1" PunchType.IN 999990000],
            Except.error duplicatePunchMessage)) ∧
    (∀ adminTimestamp : Int,
        (manualPunchRoute [] 1000000000 "p1" "e1" adminTimestamp PunchType.IN
            "10.0.0.1").2 =
          Except.ok
            { id := "p1", employeeId := "e1", punchType := PunchType.IN,
              timestamp := 1000000000, latitude := none, longitude := none,
              ipAddress := "10.0.0.1", flagged := false }) :=
  ⟨fun _ => rfl, fun _ => rfl⟩

/-- The folded walk computes the recursive in/out pairing sum, for any
starting accumulator and open session. -/
lemma foldl_walkStep_eq (l : List Punch) :
    ∀ (acc : Int) (t? : Option Int),
      (l.foldl walkStep (acc, t?)).1 = acc + workedMsSpec t? l := by
  induction l with
  | nil => intro acc t?; simp [workedMsSpec]
  | cons p rest ih =>
    intro acc t?
    cases hpt : p.punchType with
    | IN => simp [walkStep, hpt, workedMsSpec, ih]
    | OUT =>
      cases t? with
      | none => simp [walkStep, hpt, workedMsSpec, ih]
      | some t =>
        simp [walkStep, hpt, workedMsSpec, ih]
        ring

/-- The adjacency pass equals the zip-with-tail sum of out-to-in gaps. -/
lemma breakMs_eq_spec : ∀ l : List Punch, breakMs l = breakMsSpec l
  | [] => rfl
  | [_] => rfl
  | p :: q :: rest => by
    have ih := breakMs_eq_spec (q :: rest)
    simp [breakMs, breakMsSpec] at ih ⊢
    omega

/-- C2: for the one-day sequence in@09:00, out@12:00, in@13:00, out@17:00 the
reconstruction yields hoursWorked 7.0 and breakTimeMinutes 60; in general,
with the employee not currently clocked in, worked time is the in/out pairing
sum over the ascending-sorted walk divided by 3600000 ms per hour, and break
time is the sum of out-to-in gaps over adjacent sorted pairs divided by
60000 ms per minute. -/
theorem timeReconstruction_hours_and_break :
    (∀ (b : Bool) (now : Int), hoursWorkedBreakTime dayShiftPunches b now = (7, 60)) ∧
    (∀ (ps : List Punch) (now : Int), ps ≠ [] →
        hoursWorkedBreakTime ps false now =
          ((workedMsSpec none (sortByTimestamp ps) : ℚ) / 3600000,
           (breakMsSpec (sortByTimestamp ps) : ℚ) / 60000)) := by
  constructor
  · intro b now
    cases b <;>
      simp [hoursWorkedBreakTime, dayShiftPunches, sortByTimestamp, walkPunches,
        walkStep, breakMs, mkPunch, List.insertionSort, List.orderedInsert] <;>
      norm_num
  · intro ps now hne
    have hW := foldl_walkStep_eq (sortByTimestamp ps) 0 none
    have hB := breakMs_eq_spec (sortByTimestamp ps)
    have hne2 : ps.isEmpty = false := by simpa [List.isEmpty_iff] using hne
    simp [hoursWorkedBreakTime, walkPunches, hne2, hW, hB]
    norm_num

/-- Witness for C2: the general pairing-sum form evaluated on the concrete
day shift gives the same 7 hours and 60 minutes. -/
theorem timeReconstruction_hours_and_break_witness :
    hoursWorkedBreakTime dayShiftPunches false 0 =
      ((workedMsSpec none (sortByTimestamp dayShiftPunches) : ℚ) / 3600000,
       (breakMsSpec (sortByTimestamp dayShiftPunches) : ℚ) / 60000) :=
  timeReconstruction_hours_and_break.2 dayShiftPunches 0 (by decide)

/-- C6: an in punch overwrites any prior unclosed in: for in@09:00, in@09:05,
out@12:00 the worked time is the 09:05-to-12:00 interval, 35/12 hours, which
is 2 hours 55 minutes, and the 09:00 open session contributes nothing. -/
theorem consecutive_in_discards_earlier_session :
    ∀ (b : Bool) (now : Int),
      hoursWorkedBreakTime doubleInPunches b now =
          ((43200000 - 32700000 : ℚ) / 3600000, 0) ∧
        (43200000 - 32700000 : ℚ) / 3600000 = 35 / 12 := by
  intro b now
  refine ⟨?_, by norm_num⟩
  cases b <;>
    simp [hoursWorkedBreakTime, doubleInPunches, sortByTimestamp, walkPunches,
      walkStep, breakMs, mkPunch, List.insertionSort, List.orderedInsert] <;>
    norm_num

/-- C7: an unpaired trailing in contributes live time only for the current
day: the single punch in@09:00 with the employee clocked in and now 11:00
yields 2.0 hours for today, while a weekly day bucket that is not today
yields 0.0 from the same punch, and the today bucket with the live add-on
yields 2.0 as well. -/
theorem trailing_in_live_time_only_today :
    hoursWorkedBreakTime singleInPunch true 39600000 = (2, 0) ∧
    (∀ (b : Bool) (now : Int), weeklyDayHours singleInPunch false b now = 0) ∧
    weeklyDayHours singleInPunch true true 39600000 = 2 := by
  refine ⟨?_, ?_, ?_⟩
  · simp [hoursWorkedBreakTime, singleInPunch, sortByTimestamp, walkPunches,
      walkStep, breakMs, mkPunch, List.insertionSort, List.orderedInsert]
    norm_num
  · intro b now
    rfl
  · simp [weeklyDayHours, singleInPunch, sortByTimestamp, dayStep, mkPunch,
      List.insertionSort, List.orderedInsert]
    norm_num

/-- Counterexample to C4: an employee who clocked in and back out today (the
last punch of today is an out) is still counted by the aggregator, because it
counts distinct employees with any in punch today, not employees whose last
punch of today is an in. -/
theorem clockedInToday_counts_in_even_after_out :
    (getAdminStats [statsEmployee] statsPunches [] 0).clockedInToday = 1 ∧
    clockedInTodaySpec [statsEmployee] statsPunches 0 = 0 := by
  decide

/-- C4 (amended): activeEmployees is the number of active employees,
clockedInToday the number of distinct employees having at least one in punch
in the window of today, punchesToday the number of punches in that window,
and pendingCorrections the number of corrections with status pending. -/
theorem getAdminStats_counts :
    ∀ (es : List Employee) (ps : List Punch) (cs : List Correction) (t0 : Int),
      getAdminStats es ps cs t0 =
        { activeEmployees := es.countP fun e => e.isActive,
          clockedInToday := ((ps.filter fun p =>
              inTodayWindow t0 p.timestamp && p.punchType == PunchType.IN).map
            fun p => p.employeeId).toFinset.card,
          punchesToday := ps.countP fun p => inTodayWindow t0 p.timestamp,
          pendingCorrections :=
            cs.countP fun c => c.status == RequestStatus.pending } := by
  intro es ps cs t0
  simp [getAdminStats, List.card_toFinset, List.countP_eq_length_filter]

/-- Counterexample to C5: deciding a pending correction to denied with no
note at all succeeds and mutates the correction, instead of being rejected
with a conflict and leaving it unchanged. -/
theorem denial_without_note_not_rejected :
    (updateCorrection [pendingCorrection] "c1" (some RequestStatus.denied) none).2 =
      some { pendingCorrection with status := RequestStatus.denied } ∧
    (updateCorrection [pendingCorrection] "c1" (some RequestStatus.denied) none).1 ≠
      [pendingCorrection] := by
  decide

/-- C5 (amended): a decide call that sets the status of a stored correction
to denied succeeds whether or not an admin note is supplied, no matter its
content: no conflict is raised, the status becomes denied, and the note is
replaced exactly when one is supplied. -/
theorem updateCorrection_denies_regardless_of_note
    (store : List Correction) (c : Correction) (noteField : Option String)
    (hfind : store.find? (fun x => x.id == c.id) = some c) :
    (updateCorrection store c.id (some RequestStatus.denied) noteField).2 =
      some { c with status := RequestStatus.denied, note := noteField.getD c.note } := by
  have hg : ∀ x : Correction,
      (((if x.id == c.id then
          { x with status := (some RequestStatus.denied).getD x.status,
                   note := noteField.getD x.note }
        else x).id == c.id)) = (x.id == c.id) := by
    intro x
    by_cases h : x.id == c.id <;> simp [h]
  unfold updateCorrection
  dsimp only
  rw [find?_map_key_invariant _ _ hg, hfind]
  simp

/-- Witness for C5 (amended): denying the concrete pending correction with a
reason replaces the note and the status. -/
theorem updateCorrection_denies_regardless_of_note_witness :
    (updateCorrection [pendingCorrection] "c1" (some RequestStatus.denied)
        (some "shift was not scheduled")).2 =
      some { pendingCorrection with status := RequestStatus.denied, note := "shift was not scheduled" } :=
  updateCorrection_denies_regardless_of_note [pendingCorrection] pendingCorrection
    (some "shift was not scheduled") (by decide)

/-- C8: the range query returns exactly the stored requests matching its
WHERE clause, a predicate over startDate and endDate alone (so the
isPartialDay, startTime and endTime fields cannot affect membership), and
for a stored request whose dates form an interval and a query forming an
interval, membership holds if and only if the two closed intervals
intersect. -/
theorem timeOffRange_membership :
    (∀ (store : List TimeOffRequest) (r : TimeOffRequest) (qs qe : ℕ),
        r ∈ getTimeOffRequestsInRange store qs qe ↔
          r ∈ store ∧ overlapsQuery r qs qe) ∧
    (∀ (store : List TimeOffRequest) (r : TimeOffRequest) (qs qe : ℕ),
        r ∈ store → r.startDate ≤ r.endDate → qs ≤ qe →
          (r ∈ getTimeOffRequestsInRange store qs qe ↔
            intervalsIntersect r.startDate r.endDate qs qe)) := by
  have hmem : ∀ (store : List TimeOffRequest) (r : TimeOffRequest) (qs qe : ℕ),
      r ∈ getTimeOffRequestsInRange store qs qe ↔ r ∈ store ∧ overlapsQuery r qs qe := by
    intro store r qs qe
    unfold getTimeOffRequestsInRange
    rw [List.Perm.mem_iff (List.perm_insertionSort _ _), List.mem_filter]
    simp
  refine ⟨hmem, ?_⟩
  intro store r qs qe hr hwf hq
  rw [hmem store r qs qe]
  unfold overlapsQuery intervalsIntersect
  simp [hr]
  omega

/-- Witness for C8: the request 2025-03-10 through 2025-03-12 is returned for
the query 2025-03-11 to 2025-03-11 (fully inside) and for the query
2025-03-12 to 2025-03-20 (boundary touch). -/
theorem timeOffRange_membership_witness :
    marchRequest ∈ getTimeOffRequestsInRange [marchRequest] 20250311 20250311 ∧
    marchRequest ∈ getTimeOffRequestsInRange [marchRequest] 20250312 20250320 :=
  ⟨(timeOffRange_membership.2 [marchRequest] marchRequest 20250311 20250311
      (by decide) (by decide) (by decide)).mpr (by decide),
   (timeOffRange_membership.2 [marchRequest] marchRequest 20250312 20250320
      (by decide) (by decide) (by decide)).mpr (by decide)⟩

/-- C9: updating only the timestamp of a stored punch and reading it back
returns the punch with the new timestamp and every other field, employeeId,
punchType, latitude, longitude, ipAddress and flagged, unchanged. -/
theorem updatePunch_timestamp_roundtrip
    (store : List Punch) (p : Punch) (T : Int)
    (hfind : store.find? (fun x => x.id == p.id) = some p) :
    (updatePunch store p.id (timestampOnlyUpdate T)).2 =
      some { p with timestamp := T } := by
  have hg : ∀ x : Punch,
      ((if x.id == p.id then applyPunchUpdate (timestampOnlyUpdate T) x else x).id
          == p.id) = (x.id == p.id) := by
    intro x
    by_cases h : x.id == p.id <;> simp [h, applyPunchUpdate]
  unfold updatePunch
  dsimp only
  rw [find?_map_key_invariant _ _ hg, hfind]
  simp [applyPunchUpdate, timestampOnlyUpdate]

/-- Witness for C9: rewriting the timestamp of a concrete stored punch keeps
its other fields. -/
theorem updatePunch_timestamp_roundtrip_witness :
    (updatePunch [mkPunch "p1" "e1" PunchType.IN 32400000] "p1"
        (timestampOnlyUpdate 36000000)).2 =
      some { mkPunch "p1" "e1" PunchType.IN 32400000 with timestamp := 36000000 } :=
  updatePunch_timestamp_roundtrip [mkPunch "p1" "e1" PunchType.IN 32400000]
    (mkPunch "p1" "e1" PunchType.IN 32400000) 36000000 (by decide)

end TimeClockPro
